import Mathlib

/-!
Verification of the e-paper WS 1in02 SPI driver (`src/pi/e_paper_ws_1in02.rs`,
`src/pi/buf_type_impl.rs`, `src/main.rs`).

The driver is shallowly embedded as trace-producing functions: every GPIO pin
write, SPI bus write, pin read and sleep performed by a `Paper` method is
recorded as an event.  Pin reads are modelled by threading an explicit list of
read results (`List Lv`) through the busy-polling code.  Machine bytes are
plain `Nat` values (all constants in the source fit in `u8` and no arithmetic
overflows anywhere).
-/

/-- Electrical level of a GPIO pin (`rppal::gpio::Level`). -/
inductive Lv where
  | high
  | low
deriving DecidableEq

/-- The four pins owned by `Paper`: reset, data/command select, busy, power. -/
inductive PinId where
  | rst
  | dc
  | bz
  | pw
deriving DecidableEq

/-- Whether a byte buffer was transmitted through `send_cmd` or `send_data`.
The tag records the call site in the source; on the wire the two are
distinguished only by the level of the `dc` pin at transmission time. -/
inductive Kind where
  | cmd
  | data
deriving DecidableEq

/-- One observable action of the driver. -/
inductive Ev where
  | setPin (p : PinId) (l : Lv)
  | spiWrite (k : Kind) (bytes : List Nat)
  | readPin (p : PinId) (l : Lv)
  | sleepMs (ms : Nat)
deriving DecidableEq

/-- `pub const WIDTH: u32 = 80;` -/
def WIDTH : Nat := 80

/-- `pub const HEIGHT: u32 = 128;` -/
def HEIGHT : Nat := 128

/-- `const AWAIT_BUSY_MS: i32 = 50;` -/
def AWAIT_BUSY_MS : Nat := 50

/-- `const CMD_BZ_QUERY: &[u8] = &[0x71];` -/
def CMD_BZ_QUERY : List Nat := [0x71]

/-- `const CMD_TO_DISPLAY: &[u8] = &[0x12];` -/
def CMD_TO_DISPLAY : List Nat := [0x12]

/-- `const CMD_LUT_W_REG: &[u8] = &[0x23];` -/
def CMD_LUT_W_REG : List Nat := [0x23]

/-- `const CMD_LUT_B_REG: &[u8] = &[0x24];` -/
def CMD_LUT_B_REG : List Nat := [0x24]

/-- `const FULL_LUT_W_REG_DATA` (42 bytes). -/
def FULL_LUT_W_REG_DATA : List Nat :=
  [0x60, 0x5A, 0x5A, 0x00, 0x00, 0x01,
   0x00, 0x00, 0x00, 0x00, 0x00, 0x00,
   0x00, 0x00, 0x00, 0x00, 0x00, 0x00,
   0x00, 0x00, 0x00, 0x00, 0x00, 0x00,
   0x00, 0x00, 0x00, 0x00, 0x00, 0x00,
   0x00, 0x00, 0x00, 0x00, 0x00, 0x00,
   0x00, 0x00, 0x00, 0x00, 0x00, 0x00]

/-- `const FULL_LUT_B_REG_DATA` (42 bytes). -/
def FULL_LUT_B_REG_DATA : List Nat :=
  [0x90, 0x5A, 0x5A, 0x00, 0x00, 0x01,
   0x00, 0x00, 0x00, 0x00, 0x00, 0x00,
   0x00, 0x00, 0x00, 0x00, 0x00, 0x00,
   0x00, 0x00, 0x00, 0x00, 0x00, 0x00,
   0x00, 0x00, 0x00, 0x00, 0x00, 0x00,
   0x00, 0x00, 0x00, 0x00, 0x00, 0x00,
   0x00, 0x00, 0x00, 0x00, 0x00, 0x00]

/-- `const PART_LUT_W_REG_DATA` (42 bytes). -/
def PART_LUT_W_REG_DATA : List Nat :=
  [0x60, 0x01, 0x01, 0x00, 0x00, 0x01,
   0x80, 0x1f, 0x00, 0x00, 0x00, 0x01,
   0x00, 0x00, 0x00, 0x00, 0x00, 0x00,
   0x00, 0x00, 0x00, 0x00, 0x00, 0x00,
   0x00, 0x00, 0x00, 0x00, 0x00, 0x00,
   0x00, 0x00, 0x00, 0x00, 0x00, 0x00,
   0x00, 0x00, 0x00, 0x00, 0x00, 0x00]

/-- `const PART_LUT_B_REG_DATA` (42 bytes). -/
def PART_LUT_B_REG_DATA : List Nat :=
  [0x90, 0x01, 0x01, 0x00, 0x00, 0x01,
   0x40, 0x1f, 0x00, 0x00, 0x00, 0x01,
   0x00, 0x00, 0x00, 0x00, 0x00, 0x00,
   0x00, 0x00, 0x00, 0x00, 0x00, 0x00,
   0x00, 0x00, 0x00, 0x00, 0x00, 0x00,
   0x00, 0x00, 0x00, 0x00, 0x00, 0x00,
   0x00, 0x00, 0x00, 0x00, 0x00, 0x00]

/-- Outcome of an operation that may block on the busy pin.  `ok` and `err`
mirror `Ok(())` and `Err(timeout)` of `await_busy`; `pending` is the modelling
artifact for a finite pin-read list that was exhausted while the code would
still be polling (the real loop would simply keep running). -/
inductive Outcome where
  | ok
  | err
  | pending
deriving DecidableEq

/-- `fn send_cmd<T: Bytes>`: drive `dc` low, then write the bytes on the bus. -/
def sendCmdEvs (bs : List Nat) : List Ev :=
  [Ev.setPin .dc .low, Ev.spiWrite .cmd bs]

/-- `fn send_data<T: Bytes>`: drive `dc` high, then write the bytes on the bus. -/
def sendDataEvs (bs : List Nat) : List Ev :=
  [Ev.setPin .dc .high, Ev.spiWrite .data bs]

/-- `fn on_busy`: `Level::High => false, Level::Low => true`. -/
def busyOf : Lv → Bool
  | .high => false
  | .low => true

/-- `fn on_busy`: send `CMD_BZ_QUERY` (0x71), then read the busy pin. -/
def onBusyEvs (l : Lv) : List Ev :=
  sendCmdEvs CMD_BZ_QUERY ++ [Ev.readPin .bz l]

/-- Inner loop of `await_busy` with `timeout_opt = None`:
`loop { if self.on_busy() { await_ms(50) } else { break } }`. -/
def noneLoopEvs : List Lv → List Ev × Outcome
  | [] => ([], .pending)
  | r :: rs =>
    if busyOf r then
      let p := noneLoopEvs rs
      (onBusyEvs r ++ Ev.sleepMs AWAIT_BUSY_MS :: p.1, p.2)
    else (onBusyEvs r, .ok)

/-- Inner loop of `await_busy` with `timeout_opt = Some(dur)`: poll, return the
timeout error when a poll happens past the deadline, otherwise sleep 50 ms and
poll again.  `t` is elapsed time in ms since entry (sleeps are the only things
that advance time in this model) and `dead` is the deadline `now + dur`. -/
def someLoopEvs (dead : Nat) : List Lv → Nat → List Ev × Outcome
  | [], _ => ([], .pending)
  | r :: rs, t =>
    if busyOf r then
      if t > dead then (onBusyEvs r, .err)
      else
        let p := someLoopEvs dead rs (t + AWAIT_BUSY_MS)
        (onBusyEvs r ++ Ev.sleepMs AWAIT_BUSY_MS :: p.1, p.2)
    else (onBusyEvs r, .ok)

/-- `fn await_busy(&mut self, timeout_opt: Option<Duration>)`.  The list
`reads` supplies the busy-pin levels observed by the successive `on_busy`
calls. -/
def awaitBusyEvs (timeout : Option Nat) (reads : List Lv) : List Ev × Outcome :=
  match reads with
  | [] => ([], .pending)
  | r :: rs =>
    if busyOf r then
      match timeout with
      | some d =>
        let p := someLoopEvs d rs 0
        (onBusyEvs r ++ p.1, p.2)
      | none =>
        let p := noneLoopEvs rs
        (onBusyEvs r ++ p.1, p.2)
    else (onBusyEvs r, .ok)

/-- `fn reset`: rs high, sleep 200 ms, rs low, sleep 2 ms, rs high, sleep 200 ms. -/
def resetEvs : List Ev :=
  [Ev.setPin .rst .high, Ev.sleepMs 200,
   Ev.setPin .rst .low, Ev.sleepMs 2,
   Ev.setPin .rst .high, Ev.sleepMs 200]

/-- One `send_cmd(CMD)` followed by `for i in 0..42 { send_data(LUT[i]) }`
as in `set_full_reg` / `set_part_reg`. -/
def lutWriteEvs (cmdBytes : List Nat) (lut : List Nat) : List Ev :=
  sendCmdEvs cmdBytes ++ ((List.range 42).map fun i => sendDataEvs [lut.getD i 0]).flatten

/-- `fn set_full_reg`. -/
def setFullRegEvs : List Ev :=
  lutWriteEvs CMD_LUT_W_REG FULL_LUT_W_REG_DATA ++ lutWriteEvs CMD_LUT_B_REG FULL_LUT_B_REG_DATA

/-- `fn set_part_reg`. -/
def setPartRegEvs : List Ev :=
  lutWriteEvs CMD_LUT_W_REG PART_LUT_W_REG_DATA ++ lutWriteEvs CMD_LUT_B_REG PART_LUT_B_REG_DATA

/-- The command/parameter writes of `fn on` between `reset()` and
`set_full_reg()`, in source order (opaque vendor register map). -/
def VENDOR_SEQ : List (Nat × List Nat) :=
  [(0xD2, [0x3F]),
   (0x00, [0x6F]),
   (0x01, [0x03, 0x00, 0x2b, 0x2b]),
   (0x06, [0x3f]),
   (0x2A, [0x00, 0x00]),
   (0x30, [0x17]),
   (0x50, [0x57]),
   (0x60, [0x22]),
   (0x61, [0x50, 0x80]),
   (0x82, [0x12]),
   (0xe3, [0x33])]

/-- One vendor register write: `send_cmd(c)` then one `send_data(b)` per
parameter byte (the source sends each parameter byte as its own write). -/
def regWriteEvs (p : Nat × List Nat) : List Ev :=
  sendCmdEvs [p.1] ++ (p.2.map fun b => sendDataEvs [b]).flatten

/-- Events of `pub fn on` before the final `await_busy(None)`. -/
def onHeadEvs : List Ev :=
  Ev.setPin .pw .high :: resetEvs ++ (VENDOR_SEQ.map regWriteEvs).flatten
    ++ setFullRegEvs ++ sendCmdEvs [0x04]

/-- `pub fn on`: power pin high, reset pulse, vendor sequence, full-refresh
LUT, power-on command 0x04, `await_busy(None).unwrap()`. -/
def onEvs (reads : List Lv) : List Ev × Outcome :=
  let ab := awaitBusyEvs none reads
  (onHeadEvs ++ ab.1, ab.2)

/-- `fn turn_on_display`: `send_cmd(CMD_TO_DISPLAY)` (0x12), sleep 10 ms,
`await_busy(None).unwrap()`. -/
def turnOnDisplayEvs (reads : List Lv) : List Ev × Outcome :=
  let ab := awaitBusyEvs none reads
  (sendCmdEvs CMD_TO_DISPLAY ++ Ev.sleepMs 10 :: ab.1, ab.2)

/-- Rust `slice::chunks(n)` (with `n > 0`): consecutive chunks of length `n`,
the last possibly shorter. -/
def chunksOf (n : Nat) (l : List Nat) : List (List Nat) :=
  if h : n = 0 ∨ l = [] then []
  else l.take n :: chunksOf n (l.drop n)
termination_by l.length
decreasing_by
  have hn : n ≠ 0 := fun hh => h (Or.inl hh)
  have hl : l ≠ [] := fun hh => h (Or.inr hh)
  have hpos : 0 < l.length := List.length_pos.mpr hl
  simp only [List.length_drop]
  omega

/-- Events of `pub fn display` before `turn_on_display()`.

`rendered` stands for `image.into_raw()` of the buffer the function builds
internally: `ImageBuffer::from_pixel(HEIGHT, WIDTH, Luma([255u8]))` (a
128-by-80 one-byte-per-pixel grayscale image, hence 10240 bytes) over which
`draw_text_mut` rasterizes the string literal.  Rasterization lives in the
external `imageproc`/`ab_glyph` crates, so the buffer is a parameter here;
its construction fixes its length to `HEIGHT * WIDTH` and makes it
independent of the `img` argument.  The body never reads `img` (the source
only computes `di.len()` of the internal buffer for a debug log). -/
def displayHeadEvs (rendered : List Nat) : List Ev :=
  sendCmdEvs [0x10] ++ (List.replicate (WIDTH * HEIGHT / 8) (sendDataEvs [0xff])).flatten
    ++ sendCmdEvs [0x13] ++ ((chunksOf 1280 rendered).map sendDataEvs).flatten

/-- `pub fn display<T: Bytes>(&mut self, img: T)`.  `img` is the argument of the caller,, bound but never transmitted by the source. -/
def displayEvs (rendered : List Nat) (img : List Nat) (reads : List Lv) :
    List Ev × Outcome :=
  let t := turnOnDisplayEvs reads
  (displayHeadEvs rendered ++ t.1, t.2)

/-- Events of `pub fn clear_screen` before `turn_on_display()`. -/
def clearHeadEvs : List Ev :=
  sendCmdEvs [0x10] ++ (List.replicate (WIDTH * HEIGHT / 8) (sendDataEvs [0x00])).flatten
    ++ sendCmdEvs [0x13] ++ (List.replicate (WIDTH * HEIGHT / 8) (sendDataEvs [0xff])).flatten

/-- `pub fn clear_screen`: 0x10 + 1280 bytes 0x00, 0x13 + 1280 bytes 0xff,
then `turn_on_display()`. -/
def clearScreenEvs (reads : List Lv) : List Ev × Outcome :=
  let t := turnOnDisplayEvs reads
  (clearHeadEvs ++ t.1, t.2)

/-- `pub fn off`: 0x50 0xf7, 0x02, `await_busy(None).unwrap()`, 0x07 0xA5,
sleep 2000 ms, power pin low. -/
def offEvs (reads : List Lv) : List Ev × Outcome :=
  let ab := awaitBusyEvs none reads
  (sendCmdEvs [0x50] ++ sendDataEvs [0xf7] ++ sendCmdEvs [0x02] ++ ab.1
    ++ sendCmdEvs [0x07] ++ sendDataEvs [0xA5]
    ++ [Ev.sleepMs 2000, Ev.setPin .pw .low], ab.2)

/-- Result of one `spi_send` call: the match either falls through (possibly
logging the size) or logs and panics. -/
inductive SendResult where
  | completed
  | panicked
deriving DecidableEq

/-- Stand-in for the opaque transport error type `rppal::spi::Error`. -/
inductive SpiError where
  | fault
deriving DecidableEq

/-- `fn spi_send(&mut self, buf: &[u8])`: `self._spi.write(buf)` returns
`Ok(s_size)` (any size accepted, `s_size` used only for a debug log) or
`Err(e)` (logged, then `panic!`). -/
def spiSend (buf : List Nat) (writeResult : Except SpiError Nat) : SendResult :=
  match writeResult with
  | .ok _ => .completed
  | .error _ => .panicked

/-- Bytes put on the SPI bus by one event, tagged with the `dc`-pin kind. -/
def evBytes : Ev → List (Kind × Nat)
  | .spiWrite k bs => bs.map fun b => (k, b)
  | _ => []

/-- Flattened bus traffic of a trace: every byte in transmission order,
tagged with the frame kind selected by the `dc` pin. -/
def byteStream (evs : List Ev) : List (Kind × Nat) :=
  (evs.map evBytes).flatten

/-- Number of data-frame bytes contributed by one event. -/
def evDataLen : Ev → Nat
  | .spiWrite .data bs => bs.length
  | _ => 0

/-- Total number of data bytes written in a trace. -/
def totalDataBytes (evs : List Ev) : Nat :=
  (evs.map evDataLen).sum

/-- Milliseconds slept by one event. -/
def evSleep : Ev → Nat
  | .sleepMs n => n
  | _ => 0

/-- Total milliseconds slept in a trace (polls and writes take no model time). -/
def elapsedMs (evs : List Ev) : Nat :=
  (evs.map evSleep).sum

/-- Whether an event is a command write of the single opcode `c`. -/
def isCmdW (c : Nat) : Ev → Bool
  | .spiWrite .cmd bs => decide (bs = [c])
  | _ => false

/-- Number of command writes of the single opcode `c` in a trace. -/
def cmdCount (c : Nat) (evs : List Ev) : Nat :=
  evs.countP (isCmdW c)

/-- Pin-read result carried by one event, if any. -/
def evRead : Ev → Option Lv
  | .readPin _ l => some l
  | _ => none

/-- The pin-read results a trace consumed, in order. -/
def readsOf (evs : List Ev) : List Lv :=
  evs.filterMap evRead

/-- Data/command select level matching a frame kind: command frames are sent
with `dc` low, data frames with `dc` high. -/
def dcLevel : Kind → Lv
  | .cmd => .low
  | .data => .high

/-- Whether an event is something other than a bus write. -/
def evOk : Ev → Bool
  | .spiWrite _ _ => false
  | _ => true

/-- An adjacent pair is fine unless the second event is a bus write whose
immediate predecessor is not the matching `dc`-pin set. -/
def pairOk (a b : Ev) : Bool :=
  match b with
  | .spiWrite k _ => decide (a = Ev.setPin .dc (dcLevel k))
  | _ => true

/-- The first event of a trace must not be a bus write. -/
def headOk : List Ev → Bool
  | [] => true
  | e :: _ => evOk e

/-- Every adjacent pair of the trace satisfies `pairOk`. -/
def chainOk : List Ev → Bool
  | [] => true
  | [_] => true
  | a :: b :: rest => pairOk a b && chainOk (b :: rest)

/-- Data/command-pin discipline: no byte is ever written without the `dc` pin
first being set to the level matching its kind. -/
def dcOk (evs : List Ev) : Bool :=
  headOk evs && chainOk evs

/-- Modelled from the spec (the BitPacker of spec section 4.1 is not present
under `src/`: `main.rs` calls a `display` that in the given source ignores its
argument, and the packing transform exists only in the description given by the spec):
clear bit `j` counting from the most significant bit of a byte. -/
def clearMsbBit (v j : Nat) : Nat :=
  v &&& (0xFF ^^^ (1 <<< (7 - j)))

/-- Modelled from the spec: clear bit `j`-from-MSB of the byte at index `i`
of the buffer. -/
def clearBufBit (buf : List Nat) (i j : Nat) : List Nat :=
  buf.set i (clearMsbBit (buf.getD i 0) j)

/-- Modelled from the spec (section 4.1): for pixel `(x, y)`, if it is BLACK,
clear bit `y mod 8` from the MSB inside byte `((W - x - 1) * H + y) / 8`;
WHITE pixels leave the buffer unchanged. -/
def packStep (W H : Nat) (img : Nat → Nat → Bool) (b : List Nat) (x y : Nat) :
    List Nat :=
  if img x y then clearBufBit b (((W - x - 1) * H + y) / 8) (y % 8) else b

/-- Modelled from the spec (section 4.1 BitPacker): the buffer starts as
`W*H/8` bytes with all bits set, then every logical coordinate is visited and
BLACK pixels clear their bit. -/
def packSpec (W H : Nat) (img : Nat → Nat → Bool) : List Nat :=
  (List.range W).foldl
    (fun b x => (List.range H).foldl (fun b2 y => packStep W H img b2 x y) b)
    (List.replicate (W * H / 8) 0xFF)

/-- An image whose only BLACK pixel is at `(x0, y0)`. -/
def singleBlack (x0 y0 : Nat) : Nat → Nat → Bool :=
  fun a b => a == x0 && b == y0

/-- An explicit call a caller can make on a live `Paper`, together with the
busy-pin levels its polls observe. -/
inductive PaperOp where
  | on (reads : List Lv)
  | display (rendered img : List Nat) (reads : List Lv)
  | clearScreen (reads : List Lv)
  | off (reads : List Lv)

/-- Trace of one explicit call. -/
def paperOpEvs : PaperOp → List Ev
  | .on reads => (onEvs reads).1
  | .display rendered img reads => (displayEvs rendered img reads).1
  | .clearScreen reads => (clearScreenEvs reads).1
  | .off reads => (offEvs reads).1

/-- Events emitted when a `Paper` value goes out of scope.  The source defines
no `Drop` impl for `Paper`; the compiler-generated drop glue only drops the
pin and SPI handles (releasing them), which performs no bus writes, no sleeps
and no power-pin shutdown sequence. -/
def dropEvs : List Ev := []

/-- Trace of a whole `Paper` scope: the explicit calls made on it, followed by
the implicit end-of-scope drop, after which the pins are released. -/
def scopeEvs (ops : List PaperOp) : List Ev :=
  (ops.map paperOpEvs).flatten ++ dropEvs

/-- Whether an op is an explicit `off()` call. -/
def isOffOp : PaperOp → Bool
  | .off _ => true
  | _ => false

/-- Bus traffic of a blocking busy-wait, as the spec describes it (its conformance to
the polling description of the spec is
the subject of the C6/C7 theorems). -/
def busyStreamSpec (reads : List Lv) : List (Kind × Nat) :=
  byteStream (awaitBusyEvs none reads).1

/-- Following the words of the spec (section 4.4 `clear_screen`, section 8): write
command 0x10 followed by 1280 data bytes of one solid fill, command 0x13
followed by 1280 data bytes of the opposite solid fill, then the
display-refresh command 0x12 and a busy-wait. -/
def specClearStream (reads : List Lv) : List (Kind × Nat) :=
  (Kind.cmd, 0x10) :: List.replicate 1280 (Kind.data, 0x00)
    ++ (Kind.cmd, 0x13) :: List.replicate 1280 (Kind.data, 0xff)
    ++ (Kind.cmd, 0x12) :: busyStreamSpec reads

/-- Following the words of the spec (section 4.4 `on`): the fixed ordered vendor
register sequence, an opaque vendor register map reproduced byte-for-byte. -/
def specVendorStream : List (Kind × Nat) :=
  (VENDOR_SEQ.map fun p => (Kind.cmd, p.1) :: p.2.map fun b => (Kind.data, b)).flatten

/-- Following the words of the spec (section 4.4 `on`): vendor sequence, then the
full-refresh waveform table (command 0x23 followed by the 42 W-polarity bytes,
command 0x24 followed by the 42 B-polarity bytes), then power-on command 0x04. -/
def specOnHead : List (Kind × Nat) :=
  specVendorStream
    ++ (Kind.cmd, 0x23) :: FULL_LUT_W_REG_DATA.map (fun b => (Kind.data, b))
    ++ (Kind.cmd, 0x24) :: FULL_LUT_B_REG_DATA.map (fun b => (Kind.data, b))
    ++ [(Kind.cmd, 0x04)]

/-- Following the words of the spec: the whole `on()` bus traffic, ending in a
busy-wait with no timeout. -/
def specOnStream (reads : List Lv) : List (Kind × Nat) :=
  specOnHead ++ busyStreamSpec reads

/-- Expected trace of `await_busy(None)` that observes `k` busy polls and then
one not-busy poll: the doubled entry poll, then one 0x71 query plus 50 ms
sleep per remaining busy poll, then the final not-busy query. -/
def expectedNoneTrace : Nat → List Ev
  | 0 => onBusyEvs Lv.high
  | j + 1 =>
    onBusyEvs Lv.low
      ++ (List.replicate j (onBusyEvs Lv.low ++ [Ev.sleepMs 50])).flatten
      ++ onBusyEvs Lv.high

theorem byteStream_nil : byteStream [] = [] := rfl

theorem byteStream_cons (e : Ev) (evs : List Ev) :
    byteStream (e :: evs) = evBytes e ++ byteStream evs := by
  simp [byteStream]

theorem byteStream_append (l1 l2 : List Ev) :
    byteStream (l1 ++ l2) = byteStream l1 ++ byteStream l2 := by
  simp [byteStream]

theorem byteStream_sendCmd (bs : List Nat) :
    byteStream (sendCmdEvs bs) = bs.map fun b => (Kind.cmd, b) := by
  simp [sendCmdEvs, byteStream, evBytes]

theorem byteStream_sendData (bs : List Nat) :
    byteStream (sendDataEvs bs) = bs.map fun b => (Kind.data, b) := by
  simp [sendDataEvs, byteStream, evBytes]

theorem byteStream_onBusy (l : Lv) :
    byteStream (onBusyEvs l) = [(Kind.cmd, 0x71)] := by
  simp [onBusyEvs, byteStream, evBytes, sendCmdEvs, CMD_BZ_QUERY]

theorem byteStream_replicate_sendData (n : Nat) (b : Nat) :
    byteStream ((List.replicate n (sendDataEvs [b])).flatten)
      = List.replicate n (Kind.data, b) := by
  induction n with
  | zero => rfl
  | succ n ih =>
    simp only [List.replicate_succ, List.flatten_cons, byteStream_append, ih,
      byteStream_sendData, List.map_cons, List.map_nil]
    rfl

theorem byteStream_map_sendData_single (ds : List Nat) :
    byteStream ((ds.map fun b => sendDataEvs [b]).flatten)
      = ds.map fun b => (Kind.data, b) := by
  induction ds with
  | nil => rfl
  | cons d ds ih =>
    simp only [List.map_cons, List.flatten_cons, byteStream_append, ih,
      byteStream_sendData]
    rfl

theorem byteStream_map_sendData (cs : List (List Nat)) :
    byteStream ((cs.map sendDataEvs).flatten)
      = cs.flatten.map fun b => (Kind.data, b) := by
  induction cs with
  | nil => rfl
  | cons c cs ih =>
    simp [byteStream_append, ih, byteStream_sendData]

theorem totalDataBytes_append (l1 l2 : List Ev) :
    totalDataBytes (l1 ++ l2) = totalDataBytes l1 + totalDataBytes l2 := by
  simp [totalDataBytes]

theorem totalDataBytes_cons (e : Ev) (evs : List Ev) :
    totalDataBytes (e :: evs) = evDataLen e + totalDataBytes evs := by
  simp [totalDataBytes]

theorem totalDataBytes_sendCmd (bs : List Nat) :
    totalDataBytes (sendCmdEvs bs) = 0 := rfl

theorem totalDataBytes_sendData (bs : List Nat) :
    totalDataBytes (sendDataEvs bs) = bs.length := by
  simp [sendDataEvs, totalDataBytes, evDataLen]

theorem elapsedMs_append (l1 l2 : List Ev) :
    elapsedMs (l1 ++ l2) = elapsedMs l1 + elapsedMs l2 := by
  simp [elapsedMs]

theorem elapsedMs_onBusy (l : Lv) : elapsedMs (onBusyEvs l) = 0 := by
  cases l <;> rfl

theorem cmdCount_append (c : Nat) (l1 l2 : List Ev) :
    cmdCount c (l1 ++ l2) = cmdCount c l1 + cmdCount c l2 := by
  simp [cmdCount, List.countP_append]

theorem cmdCount_cons (c : Nat) (e : Ev) (evs : List Ev) :
    cmdCount c (e :: evs) = (if isCmdW c e then 1 else 0) + cmdCount c evs := by
  simp [cmdCount, List.countP_cons]
  omega

theorem readsOf_append (l1 l2 : List Ev) :
    readsOf (l1 ++ l2) = readsOf l1 ++ readsOf l2 := by
  simp [readsOf]

theorem readsOf_onBusy (l : Lv) : readsOf (onBusyEvs l) = [l] := by
  cases l <;> rfl

theorem chunksOf_flatten_le (n : Nat) (hn : n ≠ 0) :
    ∀ (k : Nat) (l : List Nat), l.length ≤ k → (chunksOf n l).flatten = l := by
  intro k
  induction k with
  | zero =>
    intro l hl
    have hnil : l = [] := List.eq_nil_of_length_eq_zero (Nat.le_zero.mp hl)
    subst hnil
    rw [chunksOf]
    simp
  | succ k ih =>
    intro l hl
    by_cases he : l = []
    · subst he
      rw [chunksOf]
      simp
    · have hpos : 0 < l.length := List.length_pos.mpr he
      rw [chunksOf, dif_neg (by simp [hn, he])]
      rw [List.flatten_cons]
      rw [ih (l.drop n) (by simp only [List.length_drop]; omega)]
      exact List.take_append_drop n l

theorem chunksOf_flatten (n : Nat) (hn : n ≠ 0) (l : List Nat) :
    (chunksOf n l).flatten = l :=
  chunksOf_flatten_le n hn l.length l (le_refl _)

theorem noneLoop_not_err (reads : List Lv) :
    (noneLoopEvs reads).2 ≠ Outcome.err := by
  induction reads with
  | nil => simp [noneLoopEvs]
  | cons r rs ih =>
    by_cases hb : busyOf r
    · simpa [noneLoopEvs, hb] using ih
    · simp [noneLoopEvs, hb]

theorem awaitBusy_none_not_err (reads : List Lv) :
    (awaitBusyEvs none reads).2 ≠ Outcome.err := by
  cases reads with
  | nil => simp [awaitBusyEvs]
  | cons r rs =>
    by_cases hb : busyOf r
    · simpa [awaitBusyEvs, hb] using noneLoop_not_err rs
    · simp [awaitBusyEvs, hb]

theorem noneLoop_replicate (rest : List Lv) (k : Nat) :
    noneLoopEvs (List.replicate k Lv.low ++ Lv.high :: rest)
      = ((List.replicate k (onBusyEvs Lv.low ++ [Ev.sleepMs 50])).flatten
          ++ onBusyEvs Lv.high, Outcome.ok) := by
  induction k with
  | zero => simp [noneLoopEvs, busyOf]
  | succ k ih =>
    simp only [List.replicate_succ, List.cons_append]
    simp [noneLoopEvs, busyOf, ih, AWAIT_BUSY_MS]

theorem awaitBusy_none_first_high (k : Nat) (rest : List Lv) :
    awaitBusyEvs none (List.replicate k Lv.low ++ Lv.high :: rest)
      = (expectedNoneTrace k, Outcome.ok) := by
  cases k with
  | zero => simp [awaitBusyEvs, busyOf, expectedNoneTrace]
  | succ k =>
    simp only [List.replicate_succ, List.cons_append]
    simp [awaitBusyEvs, busyOf, noneLoop_replicate, expectedNoneTrace]

theorem readsOf_sleep : readsOf [Ev.sleepMs 50] = [] := rfl

theorem readsOf_replicate_poll (k : Nat) :
    readsOf ((List.replicate k (onBusyEvs Lv.low ++ [Ev.sleepMs 50])).flatten)
      = List.replicate k Lv.low := by
  induction k with
  | zero => rfl
  | succ k ih =>
    simp only [List.replicate_succ, List.flatten_cons, readsOf_append,
      readsOf_onBusy, readsOf_sleep, ih]
    rfl

theorem readsOf_expectedNone (k : Nat) :
    readsOf (expectedNoneTrace k) = List.replicate k Lv.low ++ [Lv.high] := by
  cases k with
  | zero => simp [expectedNoneTrace, readsOf_onBusy]
  | succ k =>
    simp [expectedNoneTrace, readsOf_append, readsOf_onBusy,
      readsOf_replicate_poll, List.replicate_succ]

theorem cmdCount71_onBusy (l : Lv) : cmdCount 0x71 (onBusyEvs l) = 1 := by
  cases l <;> rfl

theorem cmdCount71_replicate_poll (k : Nat) :
    cmdCount 0x71 ((List.replicate k (onBusyEvs Lv.low ++ [Ev.sleepMs 50])).flatten)
      = k := by
  induction k with
  | zero => rfl
  | succ k ih =>
    simp only [List.replicate_succ, List.flatten_cons, cmdCount_append,
      cmdCount71_onBusy, ih]
    have hz : cmdCount 0x71 [Ev.sleepMs 50] = 0 := rfl
    omega

theorem cmdCount71_expectedNone (k : Nat) :
    cmdCount 0x71 (expectedNoneTrace k) = k + 1 := by
  cases k with
  | zero => simp [expectedNoneTrace, cmdCount71_onBusy]
  | succ k =>
    simp [expectedNoneTrace, cmdCount_append, cmdCount71_onBusy,
      cmdCount71_replicate_poll]
    omega

theorem elapsedMs_cons (e : Ev) (evs : List Ev) :
    elapsedMs (e :: evs) = evSleep e + elapsedMs evs := by
  simp [elapsedMs]

theorem someLoop_timeout (d : Nat) :
    ∀ (m t : Nat), 50 * m + t > d →
      (someLoopEvs d (List.replicate (m + 1) Lv.low) t).2 = Outcome.err ∧
      elapsedMs (someLoopEvs d (List.replicate (m + 1) Lv.low) t).1
        = if t > d then 0 else ((d - t) / 50 + 1) * 50 := by
  intro m
  induction m with
  | zero =>
    intro t ht
    have htd : t > d := by omega
    simp [someLoopEvs, busyOf, htd, List.replicate_succ, elapsedMs_onBusy]
  | succ m ih =>
    intro t ht
    have h2 : List.replicate (m + 1 + 1) Lv.low = Lv.low :: List.replicate (m + 1) Lv.low :=
      List.replicate_succ _ _
    rw [h2]
    by_cases htd : t > d
    · simp [someLoopEvs, busyOf, htd, elapsedMs_onBusy]
    · have hrec := ih (t + 50) (by omega)
      have hstep : someLoopEvs d (Lv.low :: List.replicate (m + 1) Lv.low) t
          = if t > d then (onBusyEvs Lv.low, Outcome.err)
            else (onBusyEvs Lv.low
                    ++ Ev.sleepMs 50
                      :: (someLoopEvs d (List.replicate (m + 1) Lv.low) (t + 50)).1,
                  (someLoopEvs d (List.replicate (m + 1) Lv.low) (t + 50)).2) := rfl
      rw [hstep, if_neg htd]
      refine ⟨hrec.1, ?_⟩
      rw [elapsedMs_append, elapsedMs_onBusy, elapsedMs_cons, hrec.2]
      simp only [evSleep, if_neg htd]
      by_cases hts : t + 50 > d
      · have hlt : d - t < 50 := by omega
        rw [if_pos hts, Nat.div_eq_of_lt hlt]
      · have h50 : 50 ≤ d - t := by omega
        rw [if_neg hts]
        have hsub : d - (t + 50) = d - t - 50 := by omega
        rw [hsub]
        rw [Nat.div_eq_sub_div (by norm_num) h50]
        ring

/-- C6: for every duration `d`, on a busy-pin trace that reads `Low` (busy) at
every poll, `await_busy(Some(d))` returns the timeout error; the error comes
at the first poll past the deadline, so the elapsed wait is the least multiple
of the 50 ms poll interval strictly greater than `d` — in particular it
exceeds `d` but never by more than one 50 ms poll interval. -/
theorem awaitBusy_some_timeout (d : Nat) (reads : List Lv)
    (hall : ∀ r ∈ reads, r = Lv.low) (hlen : 50 * reads.length > d + 100) :
    (awaitBusyEvs (some d) reads).2 = Outcome.err ∧
    elapsedMs (awaitBusyEvs (some d) reads).1 = (d / 50 + 1) * 50 ∧
    d < elapsedMs (awaitBusyEvs (some d) reads).1 ∧
    elapsedMs (awaitBusyEvs (some d) reads).1 ≤ d + 50 ∧
    elapsedMs (awaitBusyEvs (some d) reads).1 % 50 = 0 := by
  obtain ⟨L, rfl⟩ : ∃ L, reads = List.replicate L Lv.low :=
    ⟨reads.length, List.eq_replicate_iff.mpr ⟨rfl, hall⟩⟩
  rw [List.length_replicate] at hlen
  have hL : L = (L - 2) + 1 + 1 := by omega
  rw [hL, List.replicate_succ]
  have hml := someLoop_timeout d (L - 2) 0 (by omega)
  simp only [awaitBusyEvs, busyOf, if_true]
  rw [elapsedMs_append, elapsedMs_onBusy]
  rcases hml with ⟨herr, helap⟩
  have h0d : ¬ (0 > d) := by omega
  rw [if_neg h0d, Nat.sub_zero] at helap
  refine ⟨herr, ?_, ?_, ?_, ?_⟩ <;> rw [helap] <;> omega

theorem elapsedMs_replicate_poll (k : Nat) :
    elapsedMs ((List.replicate k (onBusyEvs Lv.low ++ [Ev.sleepMs 50])).flatten)
      = 50 * k := by
  induction k with
  | zero => rfl
  | succ k ih =>
    simp only [List.replicate_succ, List.flatten_cons, elapsedMs_append,
      elapsedMs_onBusy, ih]
    have h1 : elapsedMs [Ev.sleepMs 50] = 50 := rfl
    omega

theorem elapsedMs_expectedNone (k : Nat) :
    elapsedMs (expectedNoneTrace k) = 50 * (k - 1) := by
  cases k with
  | zero => rfl
  | succ k =>
    simp only [expectedNoneTrace, elapsedMs_append, elapsedMs_onBusy,
      elapsedMs_replicate_poll]
    omega

theorem evOk_pairOk (a b : Ev) (h : evOk b = true) : pairOk a b = true := by
  cases b <;> simp [pairOk] <;> simp [evOk] at h

theorem headOk_append (l1 l2 : List Ev) (h1 : headOk l1 = true)
    (h2 : headOk l2 = true) : headOk (l1 ++ l2) = true := by
  cases l1 with
  | nil => simpa using h2
  | cons e t => simpa [headOk] using h1

theorem chainOk_append (l1 l2 : List Ev) (h1 : chainOk l1 = true)
    (h2 : chainOk l2 = true) (hh : headOk l2 = true) :
    chainOk (l1 ++ l2) = true := by
  induction l1 with
  | nil => simpa using h2
  | cons a t ih =>
    cases t with
    | nil =>
      cases l2 with
      | nil => rfl
      | cons b u =>
        have hb : evOk b = true := by simpa [headOk] using hh
        show chainOk (a :: b :: u) = true
        simp [chainOk, evOk_pairOk a b hb]
        exact h2
    | cons a2 t2 =>
      have h1p : pairOk a a2 = true ∧ chainOk (a2 :: t2) = true := by
        simpa [chainOk, Bool.and_eq_true] using h1
      have hrec : chainOk ((a2 :: t2) ++ l2) = true := ih h1p.2
      have hre : (a2 :: t2) ++ l2 = a2 :: (t2 ++ l2) := rfl
      rw [hre] at hrec
      show chainOk (a :: a2 :: (t2 ++ l2)) = true
      simp [chainOk, h1p.1, hrec]

theorem dcOk_append (l1 l2 : List Ev) (h1 : dcOk l1 = true) (h2 : dcOk l2 = true) :
    dcOk (l1 ++ l2) = true := by
  rw [dcOk, Bool.and_eq_true] at h1 h2
  rw [dcOk, Bool.and_eq_true]
  exact ⟨headOk_append l1 l2 h1.1 h2.1, chainOk_append l1 l2 h1.2 h2.2 h2.1⟩

theorem dcOk_single (e : Ev) (he : evOk e = true) : dcOk [e] = true := by
  simp [dcOk, headOk, he, chainOk]

theorem dcOk_cons (e : Ev) (l : List Ev) (he : evOk e = true)
    (hl : dcOk l = true) : dcOk (e :: l) = true :=
  dcOk_append [e] l (dcOk_single e he) hl

theorem dcOk_sendCmd (bs : List Nat) : dcOk (sendCmdEvs bs) = true := by
  simp [sendCmdEvs, dcOk, headOk, evOk, chainOk, pairOk, dcLevel]

theorem dcOk_sendData (bs : List Nat) : dcOk (sendDataEvs bs) = true := by
  simp [sendDataEvs, dcOk, headOk, evOk, chainOk, pairOk, dcLevel]

theorem dcOk_onBusy (l : Lv) : dcOk (onBusyEvs l) = true := by
  cases l <;> decide

theorem dcOk_flatten (L : List (List Ev)) (h : ∀ b ∈ L, dcOk b = true) :
    dcOk L.flatten = true := by
  induction L with
  | nil => rfl
  | cons b t ih =>
    rw [List.flatten_cons]
    exact dcOk_append _ _ (h b (by simp)) (ih fun x hx => h x (by simp [hx]))

theorem dcOk_noneLoop (reads : List Lv) : dcOk (noneLoopEvs reads).1 = true := by
  induction reads with
  | nil => rfl
  | cons r rs ih =>
    by_cases hb : busyOf r = true
    · simp only [noneLoopEvs, hb, if_true]
      have hre : onBusyEvs r ++ Ev.sleepMs AWAIT_BUSY_MS :: (noneLoopEvs rs).1
          = onBusyEvs r ++ ([Ev.sleepMs AWAIT_BUSY_MS] ++ (noneLoopEvs rs).1) := rfl
      rw [hre]
      exact dcOk_append _ _ (dcOk_onBusy r)
        (dcOk_append _ _ (dcOk_single _ rfl) ih)
    · simp only [noneLoopEvs, hb, if_false]
      exact dcOk_onBusy r

theorem dcOk_someLoop (d : Nat) (reads : List Lv) :
    ∀ t, dcOk (someLoopEvs d reads t).1 = true := by
  induction reads with
  | nil => intro t; rfl
  | cons r rs ih =>
    intro t
    by_cases hb : busyOf r = true
    · by_cases htd : t > d
      · simp only [someLoopEvs, hb, if_true, if_pos htd]
        exact dcOk_onBusy r
      · simp only [someLoopEvs, hb, if_true, if_neg htd]
        have hre : onBusyEvs r ++ Ev.sleepMs AWAIT_BUSY_MS
              :: (someLoopEvs d rs (t + AWAIT_BUSY_MS)).1
            = onBusyEvs r
              ++ ([Ev.sleepMs AWAIT_BUSY_MS] ++ (someLoopEvs d rs (t + AWAIT_BUSY_MS)).1) := rfl
        rw [hre]
        exact dcOk_append _ _ (dcOk_onBusy r)
          (dcOk_append _ _ (dcOk_single _ rfl) (ih (t + AWAIT_BUSY_MS)))
    · simp only [someLoopEvs, hb, if_false]
      exact dcOk_onBusy r

theorem dcOk_awaitBusy (timeout : Option Nat) (reads : List Lv) :
    dcOk (awaitBusyEvs timeout reads).1 = true := by
  cases reads with
  | nil => rfl
  | cons r rs =>
    by_cases hb : busyOf r = true
    · cases timeout with
      | some d =>
        simp only [awaitBusyEvs, hb, if_true]
        exact dcOk_append _ _ (dcOk_onBusy r) (dcOk_someLoop d rs 0)
      | none =>
        simp only [awaitBusyEvs, hb, if_true]
        exact dcOk_append _ _ (dcOk_onBusy r) (dcOk_noneLoop rs)
    · simp only [awaitBusyEvs, hb, if_false]
      exact dcOk_onBusy r

theorem cmdCount07_onBusy (l : Lv) : cmdCount 0x07 (onBusyEvs l) = 0 := by
  cases l <;> rfl

theorem cmdCount07_noneLoop (reads : List Lv) :
    cmdCount 0x07 (noneLoopEvs reads).1 = 0 := by
  induction reads with
  | nil => rfl
  | cons r rs ih =>
    by_cases hb : busyOf r = true
    · simp only [noneLoopEvs, hb, if_true]
      have hre : onBusyEvs r ++ Ev.sleepMs AWAIT_BUSY_MS :: (noneLoopEvs rs).1
          = onBusyEvs r ++ ([Ev.sleepMs AWAIT_BUSY_MS] ++ (noneLoopEvs rs).1) := rfl
      rw [hre, cmdCount_append, cmdCount_append, cmdCount07_onBusy, ih]
      rfl
    · simp only [noneLoopEvs, hb, if_false]
      exact cmdCount07_onBusy r

theorem cmdCount07_awaitBusyNone (reads : List Lv) :
    cmdCount 0x07 (awaitBusyEvs none reads).1 = 0 := by
  cases reads with
  | nil => rfl
  | cons r rs =>
    by_cases hb : busyOf r = true
    · simp only [awaitBusyEvs, hb, if_true]
      rw [cmdCount_append, cmdCount07_onBusy, cmdCount07_noneLoop]
    · simp only [awaitBusyEvs, hb, if_false]
      exact cmdCount07_onBusy r

theorem cmdCount07_map_sendData (cs : List (List Nat)) :
    cmdCount 0x07 ((cs.map sendDataEvs).flatten) = 0 := by
  induction cs with
  | nil => rfl
  | cons c cs ih =>
    rw [List.map_cons, List.flatten_cons, cmdCount_append, ih]
    rfl

theorem cmdCount07_replicate_sendData (n : Nat) (b : Nat) :
    cmdCount 0x07 ((List.replicate n (sendDataEvs [b])).flatten) = 0 := by
  have hre : List.replicate n (sendDataEvs [b]) = (List.replicate n [b]).map sendDataEvs := by
    rw [List.map_replicate]
  rw [hre, cmdCount07_map_sendData]

theorem totalDataBytes_onBusy (l : Lv) : totalDataBytes (onBusyEvs l) = 0 := by
  cases l <;> rfl

theorem totalDataBytes_noneLoop (reads : List Lv) :
    totalDataBytes (noneLoopEvs reads).1 = 0 := by
  induction reads with
  | nil => rfl
  | cons r rs ih =>
    by_cases hb : busyOf r = true
    · simp only [noneLoopEvs, hb, if_true]
      have hre : onBusyEvs r ++ Ev.sleepMs AWAIT_BUSY_MS :: (noneLoopEvs rs).1
          = onBusyEvs r ++ ([Ev.sleepMs AWAIT_BUSY_MS] ++ (noneLoopEvs rs).1) := rfl
      rw [hre, totalDataBytes_append, totalDataBytes_append, totalDataBytes_onBusy, ih]
      rfl
    · simp only [noneLoopEvs, hb, if_false]
      exact totalDataBytes_onBusy r

theorem totalDataBytes_awaitBusyNone (reads : List Lv) :
    totalDataBytes (awaitBusyEvs none reads).1 = 0 := by
  cases reads with
  | nil => rfl
  | cons r rs =>
    by_cases hb : busyOf r = true
    · simp only [awaitBusyEvs, hb, if_true]
      rw [totalDataBytes_append, totalDataBytes_onBusy, totalDataBytes_noneLoop]
    · simp only [awaitBusyEvs, hb, if_false]
      exact totalDataBytes_onBusy r

theorem totalDataBytes_map_sendData (cs : List (List Nat)) :
    totalDataBytes ((cs.map sendDataEvs).flatten) = cs.flatten.length := by
  induction cs with
  | nil => rfl
  | cons c cs ih =>
    rw [List.map_cons, List.flatten_cons, totalDataBytes_append, ih,
      totalDataBytes_sendData, List.flatten_cons, List.length_append]

theorem totalDataBytes_replicate_sendData (n : Nat) (b : Nat) :
    totalDataBytes ((List.replicate n (sendDataEvs [b])).flatten) = n := by
  have hre : List.replicate n (sendDataEvs [b]) = (List.replicate n [b]).map sendDataEvs := by
    rw [List.map_replicate]
  rw [hre, totalDataBytes_map_sendData]
  induction n with
  | zero => rfl
  | succ n ih => simp [List.replicate_succ, ih]

theorem onEvs_decomp (reads : List Lv) :
    (onEvs reads).1 = onHeadEvs ++ (awaitBusyEvs none reads).1 := rfl

theorem clearScreenEvs_decomp (reads : List Lv) :
    (clearScreenEvs reads).1
      = clearHeadEvs ++ (sendCmdEvs [0x12] ++ Ev.sleepMs 10 :: (awaitBusyEvs none reads).1) := rfl

theorem displayEvs_decomp (rendered img : List Nat) (reads : List Lv) :
    (displayEvs rendered img reads).1
      = displayHeadEvs rendered
          ++ (sendCmdEvs [0x12] ++ Ev.sleepMs 10 :: (awaitBusyEvs none reads).1) := rfl

theorem offEvs_decomp (reads : List Lv) :
    (offEvs reads).1
      = (sendCmdEvs [0x50] ++ sendDataEvs [0xf7] ++ sendCmdEvs [0x02])
          ++ (awaitBusyEvs none reads).1
          ++ (sendCmdEvs [0x07] ++ sendDataEvs [0xA5]
                ++ [Ev.sleepMs 2000, Ev.setPin .pw .low]) := by
  simp [offEvs, List.append_assoc]

theorem byteStream_onHead : byteStream onHeadEvs = specOnHead := by decide

theorem byteStream_clearHead :
    byteStream clearHeadEvs
      = (Kind.cmd, 0x10) :: List.replicate 1280 (Kind.data, 0x00)
          ++ (Kind.cmd, 0x13) :: List.replicate 1280 (Kind.data, 0xff) := by
  have hwh : WIDTH * HEIGHT / 8 = 1280 := rfl
  simp only [clearHeadEvs, byteStream_append, byteStream_sendCmd,
    byteStream_replicate_sendData, hwh]
  simp only [List.map_cons, List.map_nil, List.append_assoc, List.cons_append,
    List.nil_append, List.singleton_append]

theorem byteStream_displayHead (rendered : List Nat) :
    byteStream (displayHeadEvs rendered)
      = (Kind.cmd, 0x10) :: List.replicate 1280 (Kind.data, 0xff)
          ++ (Kind.cmd, 0x13) :: (rendered.map fun b => (Kind.data, b)) := by
  have hwh : WIDTH * HEIGHT / 8 = 1280 := rfl
  simp only [displayHeadEvs, byteStream_append, byteStream_sendCmd,
    byteStream_replicate_sendData, byteStream_map_sendData,
    chunksOf_flatten 1280 (by norm_num), hwh]
  simp only [List.map_cons, List.map_nil, List.append_assoc, List.cons_append,
    List.nil_append, List.singleton_append]

theorem totalDataBytes_clearHead : totalDataBytes clearHeadEvs = 2560 := by
  have hwh : WIDTH * HEIGHT / 8 = 1280 := rfl
  simp only [clearHeadEvs, totalDataBytes_append, totalDataBytes_sendCmd,
    totalDataBytes_replicate_sendData, hwh]

theorem totalDataBytes_displayHead (rendered : List Nat) :
    totalDataBytes (displayHeadEvs rendered) = 1280 + rendered.length := by
  have hwh : WIDTH * HEIGHT / 8 = 1280 := rfl
  simp only [displayHeadEvs, totalDataBytes_append, totalDataBytes_sendCmd,
    totalDataBytes_replicate_sendData, totalDataBytes_map_sendData, hwh,
    chunksOf_flatten 1280 (by norm_num)]

theorem totalDataBytes_turnOnTail (reads : List Lv) :
    totalDataBytes (sendCmdEvs [0x12] ++ Ev.sleepMs 10 :: (awaitBusyEvs none reads).1)
      = 0 := by
  rw [totalDataBytes_append, totalDataBytes_sendCmd, totalDataBytes_cons,
    totalDataBytes_awaitBusyNone]
  rfl

/-- C4: `clear_screen()` performs exactly two full-frame buffer writes of
`WIDTH*HEIGHT/8 = 1280` data bytes each — command 0x10 followed by 1280 bytes
of the solid fill 0x00, then command 0x13 followed by 1280 bytes of the
opposite solid fill 0xff — and then sends the display-refresh command 0x12
followed by a busy-wait. -/
theorem clear_screen_two_full_frame_writes (reads : List Lv) :
    byteStream (clearScreenEvs reads).1 = specClearStream reads ∧
    totalDataBytes (clearScreenEvs reads).1 = 2560 ∧
    WIDTH * HEIGHT / 8 = 1280 ∧
    (clearScreenEvs reads).2 = (awaitBusyEvs none reads).2 := by
  refine ⟨?_, ?_, rfl, rfl⟩
  · rw [clearScreenEvs_decomp, byteStream_append, byteStream_clearHead,
      byteStream_append, byteStream_sendCmd, byteStream_cons]
    simp only [specClearStream, busyStreamSpec, evBytes, List.map_cons,
      List.map_nil, List.append_assoc, List.cons_append, List.nil_append,
      List.singleton_append]
  · rw [clearScreenEvs_decomp, totalDataBytes_append, totalDataBytes_clearHead,
      totalDataBytes_turnOnTail]

/-- C5: `on()` drives the power pin high, performs the reset pulse of exactly
high 200 ms, low 2 ms, high 200 ms on the reset pin, transmits the fixed
ordered vendor register sequence, writes the full-refresh waveform table
(command 0x23 then the 42 W-polarity bytes, command 0x24 then the 42
B-polarity bytes), issues the power-on command 0x04, and busy-waits with no
timeout. -/
theorem on_follows_init_script (reads : List Lv) :
    (onEvs reads).1.take 7
      = [Ev.setPin .pw .high, Ev.setPin .rst .high, Ev.sleepMs 200,
         Ev.setPin .rst .low, Ev.sleepMs 2, Ev.setPin .rst .high, Ev.sleepMs 200] ∧
    byteStream (onEvs reads).1 = specOnStream reads ∧
    FULL_LUT_W_REG_DATA.length = 42 ∧
    FULL_LUT_B_REG_DATA.length = 42 ∧
    (onEvs reads).2 = (awaitBusyEvs none reads).2 := by
  refine ⟨rfl, ?_, rfl, rfl, rfl⟩
  rw [onEvs_decomp, byteStream_append, byteStream_onHead]
  rfl

/-- C10: the bus traffic of `display(img)` does not depend on `img` at all:
for every two caller images the traces coincide, and the payload transmitted
after command 0x13 is exactly the internally rendered buffer (the 128-by-80
one-byte-per-pixel grayscale text rendering, `HEIGHT * WIDTH = 10240` bytes). -/
theorem display_traffic_independent_of_img (rendered img1 img2 : List Nat)
    (reads : List Lv) :
    displayEvs rendered img1 reads = displayEvs rendered img2 reads ∧
    byteStream (displayEvs rendered img1 reads).1
      = (Kind.cmd, 0x10) :: List.replicate 1280 (Kind.data, 0xff)
          ++ (Kind.cmd, 0x13) :: (rendered.map fun b => (Kind.data, b))
          ++ (Kind.cmd, 0x12) :: busyStreamSpec reads ∧
    HEIGHT * WIDTH = 10240 := by
  refine ⟨rfl, ?_, rfl⟩
  rw [displayEvs_decomp, byteStream_append, byteStream_displayHead,
    byteStream_append, byteStream_sendCmd, byteStream_cons]
  simp only [busyStreamSpec, evBytes, List.map_cons, List.map_nil,
    List.append_assoc, List.cons_append, List.nil_append, List.singleton_append]

/-- C1 (bug evidence): the data payload `display` transmits is the reference
buffer (1280 bytes of 0xff) plus the 10240-byte internal text rendering —
not the 1280-byte DeviceBuffer packed from the `img` argument that the claim
requires (which would give 2560 data bytes in total).  The `img` argument is
never transmitted. -/
theorem display_payload_is_internal_rendering (rendered img : List Nat)
    (reads : List Lv) (hlen : rendered.length = HEIGHT * WIDTH) :
    totalDataBytes (displayEvs rendered img reads).1 = 11520 ∧
    WIDTH * HEIGHT / 8 + WIDTH * HEIGHT / 8 = 2560 ∧
    (11520 : Nat) ≠ 2560 := by
  refine ⟨?_, rfl, by norm_num⟩
  rw [displayEvs_decomp, totalDataBytes_append, totalDataBytes_displayHead,
    totalDataBytes_turnOnTail, hlen]
  rfl

/-- Witness for the C1 theorem at a concrete internal buffer (the all-white
10240-byte buffer) and a concrete caller image. -/
theorem display_payload_is_internal_rendering_witness :
    totalDataBytes (displayEvs (List.replicate 10240 255) [] [Lv.high]).1 = 11520 ∧
    WIDTH * HEIGHT / 8 + WIDTH * HEIGHT / 8 = 2560 ∧
    (11520 : Nat) ≠ 2560 :=
  display_payload_is_internal_rendering (List.replicate 10240 255) [] [Lv.high]
    (by rw [List.length_replicate]; rfl)

/-- C9: one SPI send is a single bus write with no retry; it panics
(terminates the operation as an unrecoverable fault) exactly when the write
returns an error, and completes as success for every `Ok(n)`, including `n`
smaller than the requested buffer length (a short write is not detected). -/
theorem spi_send_fatal_iff_transport_error :
    (∀ (buf : List Nat) (e : SpiError), spiSend buf (Except.error e) = SendResult.panicked) ∧
    (∀ (buf : List Nat) (n : Nat), spiSend buf (Except.ok n) = SendResult.completed) ∧
    spiSend [1, 2, 3] (Except.ok (1 : Nat)) = SendResult.completed ∧
    (∀ (buf : List Nat) (r : Except SpiError Nat),
      spiSend buf r = SendResult.panicked ↔ ∃ e, r = Except.error e) := by
  refine ⟨fun buf e => rfl, fun buf n => rfl, rfl, ?_⟩
  intro buf r
  cases r with
  | ok n =>
    constructor
    · intro h
      exact absurd h (by simp [spiSend])
    · rintro ⟨e, he⟩
      exact absurd he (by simp)
  | error e =>
    constructor
    · intro _
      exact ⟨e, rfl⟩
    · intro _
      rfl

/-- C7: every busy query sends command 0x71 and then reads the busy pin, with
High read as not busy and Low as busy; `await_busy(None)` returns `Ok` at the
first poll whose read is High regardless of how many busy polls preceded it
(consuming exactly those reads), sends one 0x71 query per poll, sleeps 50 ms
between busy polls, and never returns an error. -/
theorem await_busy_none_ok_at_first_high :
    (∀ l, onBusyEvs l
        = [Ev.setPin .dc .low, Ev.spiWrite .cmd [0x71], Ev.readPin .bz l]) ∧
    busyOf Lv.high = false ∧
    busyOf Lv.low = true ∧
    (∀ k (rest : List Lv),
      awaitBusyEvs none (List.replicate k Lv.low ++ Lv.high :: rest)
        = (expectedNoneTrace k, Outcome.ok)) ∧
    (∀ k, readsOf (expectedNoneTrace k) = List.replicate k Lv.low ++ [Lv.high]) ∧
    (∀ k, cmdCount 0x71 (expectedNoneTrace k) = k + 1) ∧
    (∀ k, elapsedMs (expectedNoneTrace k) = 50 * (k - 1)) ∧
    (∀ reads, (awaitBusyEvs none reads).2 ≠ Outcome.err) :=
  ⟨fun l => rfl, rfl, rfl, awaitBusy_none_first_high, readsOf_expectedNone,
   cmdCount71_expectedNone, elapsedMs_expectedNone, awaitBusy_none_not_err⟩

theorem dcOk_replicate_flatten (n : Nat) (blk : List Ev) (h : dcOk blk = true) :
    dcOk ((List.replicate n blk).flatten) = true :=
  dcOk_flatten _ fun b hb => by rw [List.eq_of_mem_replicate hb]; exact h

theorem dcOk_map_sendData (cs : List (List Nat)) :
    dcOk ((cs.map sendDataEvs).flatten) = true :=
  dcOk_flatten _ fun b hb => by
    obtain ⟨c, _, rfl⟩ := List.mem_map.mp hb
    exact dcOk_sendData c

theorem dcOk_onHead : dcOk onHeadEvs = true := by decide

theorem dcOk_clearHead : dcOk clearHeadEvs = true := by
  rw [clearHeadEvs]
  exact dcOk_append _ _
    (dcOk_append _ _
      (dcOk_append _ _ (dcOk_sendCmd _) (dcOk_replicate_flatten _ _ (dcOk_sendData _)))
      (dcOk_sendCmd _))
    (dcOk_replicate_flatten _ _ (dcOk_sendData _))

theorem dcOk_displayHead (rendered : List Nat) :
    dcOk (displayHeadEvs rendered) = true := by
  rw [displayHeadEvs]
  exact dcOk_append _ _
    (dcOk_append _ _
      (dcOk_append _ _ (dcOk_sendCmd _) (dcOk_replicate_flatten _ _ (dcOk_sendData _)))
      (dcOk_sendCmd _))
    (dcOk_map_sendData _)

theorem dcOk_turnOnTail (reads : List Lv) :
    dcOk (sendCmdEvs [0x12] ++ Ev.sleepMs 10 :: (awaitBusyEvs none reads).1) = true := by
  have hre : sendCmdEvs [0x12] ++ Ev.sleepMs 10 :: (awaitBusyEvs none reads).1
      = sendCmdEvs [0x12] ++ ([Ev.sleepMs 10] ++ (awaitBusyEvs none reads).1) := rfl
  rw [hre]
  exact dcOk_append _ _ (dcOk_sendCmd _)
    (dcOk_append _ _ (dcOk_single _ rfl) (dcOk_awaitBusy none reads))

/-- C8: in every bus write of every operation of the controller, the
data/command select pin is driven to the level matching the byte kind (low
for a command opcode, high for data bytes) immediately before the write; no
byte is ever written without the pin first being set. -/
theorem dc_pin_discipline :
    (∀ reads, dcOk (onEvs reads).1 = true) ∧
    (∀ rendered img reads, dcOk (displayEvs rendered img reads).1 = true) ∧
    (∀ reads, dcOk (clearScreenEvs reads).1 = true) ∧
    (∀ reads, dcOk (offEvs reads).1 = true) ∧
    (∀ timeout reads, dcOk (awaitBusyEvs timeout reads).1 = true) ∧
    dcOk setPartRegEvs = true := by
  refine ⟨?_, ?_, ?_, ?_, dcOk_awaitBusy, by decide⟩
  · intro reads
    rw [onEvs_decomp]
    exact dcOk_append _ _ dcOk_onHead (dcOk_awaitBusy none reads)
  · intro rendered img reads
    rw [displayEvs_decomp]
    exact dcOk_append _ _ (dcOk_displayHead rendered) (dcOk_turnOnTail reads)
  · intro reads
    rw [clearScreenEvs_decomp]
    exact dcOk_append _ _ dcOk_clearHead (dcOk_turnOnTail reads)
  · intro reads
    rw [offEvs_decomp]
    refine dcOk_append _ _ (dcOk_append _ _ ?_ (dcOk_awaitBusy none reads)) ?_
    · exact dcOk_append _ _ (dcOk_append _ _ (dcOk_sendCmd _) (dcOk_sendData _))
        (dcOk_sendCmd _)
    · exact dcOk_append _ _
        (dcOk_append _ _ (dcOk_sendCmd _) (dcOk_sendData _)) (by decide)

/-- Witness for the C6 theorem at `d = 120` ms with five consecutive busy reads. -/
theorem awaitBusy_some_timeout_witness :
    (awaitBusyEvs (some 120) (List.replicate 5 Lv.low)).2 = Outcome.err ∧
    elapsedMs (awaitBusyEvs (some 120) (List.replicate 5 Lv.low)).1
      = (120 / 50 + 1) * 50 ∧
    120 < elapsedMs (awaitBusyEvs (some 120) (List.replicate 5 Lv.low)).1 ∧
    elapsedMs (awaitBusyEvs (some 120) (List.replicate 5 Lv.low)).1 ≤ 120 + 50 ∧
    elapsedMs (awaitBusyEvs (some 120) (List.replicate 5 Lv.low)).1 % 50 = 0 :=
  awaitBusy_some_timeout 120 (List.replicate 5 Lv.low) (by decide) (by decide)

theorem cmdCount07_turnOnTail (reads : List Lv) :
    cmdCount 0x07 (sendCmdEvs [0x12] ++ Ev.sleepMs 10 :: (awaitBusyEvs none reads).1)
      = 0 := by
  have hre : sendCmdEvs [0x12] ++ Ev.sleepMs 10 :: (awaitBusyEvs none reads).1
      = sendCmdEvs [0x12] ++ ([Ev.sleepMs 10] ++ (awaitBusyEvs none reads).1) := rfl
  rw [hre, cmdCount_append, cmdCount_append, cmdCount07_awaitBusyNone]
  rfl

theorem cmdCount07_onHead : cmdCount 0x07 onHeadEvs = 0 := by decide

theorem cmdCount07_clearHead : cmdCount 0x07 clearHeadEvs = 0 := by
  rw [clearHeadEvs]
  simp only [cmdCount_append, cmdCount07_replicate_sendData]
  rfl

theorem cmdCount07_displayHead (rendered : List Nat) :
    cmdCount 0x07 (displayHeadEvs rendered) = 0 := by
  rw [displayHeadEvs]
  simp only [cmdCount_append, cmdCount07_replicate_sendData, cmdCount07_map_sendData]
  rfl

theorem cmdCount07_off (reads : List Lv) :
    cmdCount 0x07 (offEvs reads).1 = 1 := by
  rw [offEvs_decomp]
  simp only [cmdCount_append, cmdCount07_awaitBusyNone]
  rfl

theorem cmdCount07_paperOp (op : PaperOp) :
    cmdCount 0x07 (paperOpEvs op) = if isOffOp op then 1 else 0 := by
  cases op
  next reads =>
    simp only [paperOpEvs, isOffOp]
    rw [onEvs_decomp, cmdCount_append, cmdCount07_onHead, cmdCount07_awaitBusyNone]
    rfl
  next rendered img reads =>
    simp only [paperOpEvs, isOffOp]
    rw [displayEvs_decomp, cmdCount_append, cmdCount07_displayHead,
      cmdCount07_turnOnTail]
    rfl
  next reads =>
    simp only [paperOpEvs, isOffOp]
    rw [clearScreenEvs_decomp, cmdCount_append, cmdCount07_clearHead,
      cmdCount07_turnOnTail]
    rfl
  next reads =>
    simp only [paperOpEvs, isOffOp, if_true]
    exact cmdCount07_off reads

theorem scopeEvs_cons (op : PaperOp) (ops : List PaperOp) :
    scopeEvs (op :: ops) = paperOpEvs op ++ scopeEvs ops := by
  simp [scopeEvs, dropEvs, List.append_assoc]

/-- C3 (amended): the deep-sleep shutdown write (command 0x07, the heart of
`off()`) occurs exactly once per explicit `off()` call in a scope and never
as part of the implicit end-of-scope drop: `Paper` has no `Drop` impl, so
scope exit performs no shutdown at all. -/
theorem shutdown_runs_iff_explicit_off (ops : List PaperOp) :
    cmdCount 0x07 (scopeEvs ops) = ops.countP isOffOp := by
  induction ops with
  | nil => rfl
  | cons op t ih =>
    rw [scopeEvs_cons, cmdCount_append, ih, List.countP_cons, cmdCount07_paperOp]
    by_cases h : isOffOp op <;> simp [h] <;> omega

set_option maxRecDepth 10000 in
/-- C3 counterexample: a `Paper` scope that runs `on()` (reaching Idle) and
then ends emits no shutdown at all — no deep-sleep command 0x07, no power-off
command 0x02, and the power pin is never driven low — whereas one explicit
`off()` call emits the deep-sleep command exactly once.  So the shutdown
sequence does not execute when a scope ends without an explicit `off()`. -/
theorem drop_mid_idle_runs_no_shutdown :
    cmdCount 0x07 (scopeEvs [PaperOp.on [Lv.high]]) = 0 ∧
    cmdCount 0x02 (scopeEvs [PaperOp.on [Lv.high]]) = 0 ∧
    (Ev.setPin .pw .low) ∉ scopeEvs [PaperOp.on [Lv.high]] ∧
    cmdCount 0x07 (paperOpEvs (PaperOp.off [Lv.high])) = 1 := by
  refine ⟨?_, ?_, ?_, ?_⟩ <;> decide

theorem foldl_id {α β : Type} (f : β → α → β) (l : List α) (b : β)
    (h : ∀ x ∈ l, ∀ acc, f acc x = acc) : l.foldl f b = b := by
  induction l generalizing b with
  | nil => rfl
  | cons a t ih =>
    rw [List.foldl_cons, h a (by simp)]
    exact ih b fun x hx acc => h x (by simp [hx]) acc

theorem foldl_range_single {β : Type} (H y : Nat) (hy : y < H) (g : β → Nat → β)
    (hid : ∀ yy, yy ≠ y → ∀ acc, g acc yy = acc) (b : β) :
    (List.range H).foldl g b = g b y := by
  have hH : H = (y + 1) + (H - (y + 1)) := by omega
  rw [hH, List.range_add, List.foldl_append, List.range_succ, List.foldl_append]
  rw [foldl_id g (List.range y) b
    (fun z hz acc => hid z (by simp only [List.mem_range] at hz; omega) acc)]
  rw [List.foldl_cons, List.foldl_nil]
  apply foldl_id
  intro z hz acc
  simp only [List.mem_map, List.mem_range] at hz
  obtain ⟨i, hi, rfl⟩ := hz
  exact hid _ (by omega) acc

theorem foldl_length {α : Type} (f : List Nat → α → List Nat) (l : List α)
    (h : ∀ b x, (f b x).length = b.length) :
    ∀ b, (l.foldl f b).length = b.length := by
  induction l with
  | nil => intro b; rfl
  | cons a t ih =>
    intro b
    rw [List.foldl_cons, ih, h]

theorem packStep_length (W H : Nat) (img : Nat → Nat → Bool) (b : List Nat)
    (x y : Nat) : (packStep W H img b x y).length = b.length := by
  rw [packStep]
  split
  · rw [clearBufBit, List.length_set]
  · rfl

theorem packSpec_length (W H : Nat) (img : Nat → Nat → Bool) :
    (packSpec W H img).length = W * H / 8 := by
  have hstep : ∀ (b : List Nat) (x : Nat),
      ((List.range H).foldl (fun b2 y => packStep W H img b2 x y) b).length
        = b.length :=
    fun b x => foldl_length _ _ (fun b2 y => packStep_length W H img b2 x y) b
  rw [packSpec, foldl_length _ _ hstep, List.length_replicate]

theorem getD_replicate_lt {α : Type} (a d : α) :
    ∀ (n i : Nat), i < n → (List.replicate n a).getD i d = a := by
  intro n
  induction n with
  | zero => intro i h; omega
  | succ n ih =>
    intro i h
    cases i with
    | zero => rfl
    | succ i => exact ih i (by omega)

theorem clearMsbBit_255 : ∀ j, j < 8 → clearMsbBit 255 j = 255 - 2 ^ (7 - j) := by
  decide

theorem packSpec_singleBlack (x y : Nat) (hx : x < 128) (hy : y < 80) :
    packSpec 128 80 (singleBlack x y)
      = (List.replicate 1280 0xFF).set (((128 - x - 1) * 80 + y) / 8)
          (0xFF - 2 ^ (7 - y % 8)) := by
  have hidx : ((128 - x - 1) * 80 + y) / 8 < 1280 := by
    have h2 : 128 - x - 1 ≤ 127 := by omega
    have h3 : (128 - x - 1) * 80 ≤ 127 * 80 := Nat.mul_le_mul_right 80 h2
    omega
  have hinner_id : ∀ xx, xx ≠ x → ∀ b : List Nat,
      (List.range 80).foldl (fun b2 yy => packStep 128 80 (singleBlack x y) b2 xx yy) b
        = b := by
    intro xx hxx b
    apply foldl_id
    intro yy hyy acc
    have hfalse : singleBlack x y xx yy = false := by
      simp only [singleBlack, Bool.and_eq_false_iff, beq_eq_false_iff_ne, ne_eq]
      left
      exact hxx
    simp [packStep, hfalse]
  have hinner_at : ∀ b : List Nat,
      (List.range 80).foldl (fun b2 yy => packStep 128 80 (singleBlack x y) b2 x yy) b
        = clearBufBit b (((128 - x - 1) * 80 + y) / 8) (y % 8) := by
    intro b
    rw [foldl_range_single 80 y hy _ ?hid b]
    · have htrue : singleBlack x y x y = true := by
        simp [singleBlack]
      simp [packStep, htrue]
    case hid =>
      intro yy hyy acc
      have hfalse : singleBlack x y x yy = false := by
        simp only [singleBlack, Bool.and_eq_false_iff, beq_eq_false_iff_ne, ne_eq]
        right
        exact hyy
      simp [packStep, hfalse]
  have houter : packSpec 128 80 (singleBlack x y)
      = clearBufBit (List.replicate (128 * 80 / 8) 0xFF)
          (((128 - x - 1) * 80 + y) / 8) (y % 8) := by
    rw [packSpec, foldl_range_single 128 x hx _
      (fun xx hxx acc => hinner_id xx hxx acc), hinner_at]
  rw [houter, clearBufBit]
  have h1280 : (128 * 80 / 8 : Nat) = 1280 := by norm_num
  rw [h1280, getD_replicate_lt 0xFF 0 1280 _ hidx,
    clearMsbBit_255 (y % 8) (Nat.mod_lt y (by norm_num))]

/-- C2 (spec-modelled BitPacker): `pack` is a pure function producing a
`WIDTH*HEIGHT/8 = 1280`-byte buffer for every image, and for the image whose
only BLACK pixel is at logical `(x, y)` exactly one bit of the result is
cleared — bit `y mod 8` counted from the most significant bit of the byte at
index `((WIDTH-x-1)*HEIGHT + y)/8` — while every other bit remains set. -/
theorem pack_single_black_pixel :
    (∀ img, (packSpec 128 80 img).length = 1280) ∧
    ∀ x y, x < 128 → y < 80 →
      packSpec 128 80 (singleBlack x y)
        = (List.replicate 1280 0xFF).set (((128 - x - 1) * 80 + y) / 8)
            (0xFF - 2 ^ (7 - y % 8)) :=
  ⟨fun img => by rw [packSpec_length],
   fun x y hx hy => packSpec_singleBlack x y hx hy⟩

/-- Witness for the C2 theorem at the concrete pixel `(3, 5)`. -/
theorem pack_single_black_pixel_witness :
    packSpec 128 80 (singleBlack 3 5)
      = (List.replicate 1280 0xFF).set (((128 - 3 - 1) * 80 + 5) / 8)
          (0xFF - 2 ^ (7 - 5 % 8)) :=
  pack_single_black_pixel.2 3 5 (by norm_num) (by norm_num)
